import Mathlib

/-!
Shallow embedding of the numerical pipeline of `src/main.py`
(stock-analysis MCP server): symbol normalization, price-series
assembly (outer-join concat of per-asset close series), returns
computation (`pct_change().dropna()`), and the Sharpe-ratio
optimizer wrapper `optimize_portfolio` / `analyze_portfolio`.

Modelling conventions:
* Python strings are `List Char`; `str.endswith` is the list-suffix test.
* Prices and weights are exact rationals `ℚ`; a missing observation
  (pandas `NaN`) in the aligned price matrix is `Option.none`.
  `pct_change` is modelled without forward-filling (`fill_method=None`,
  the current pandas default): a return cell is `none` whenever the
  price at the date or at the preceding union date is missing.
* External numeric routines are parameters: the market-data provider
  (yfinance) is a function from normalized symbol to a dated close
  series, scipy's compiled SLSQP solver is a function from the problem
  data (mean vector, covariance matrix) to a `SolverResult`, and the
  floating-point square root is a function `ℚ → ℚ`.
* On a zero-row frame pandas produces `NaN` statistics where `ℚ`
  division by zero produces `0`; the theorems that touch this case only
  assert which code path is taken, not the numeric values pandas would
  show.
-/

namespace StockAnalysis

/-- Python strings, as lists of characters. -/
abbrev Sym : Type := List Char

/-- The recognized NSE suffix `".NS"`. -/
def NS : Sym := ".NS".data

/-- The recognized BSE suffix `".BO"`. -/
def BO : Sym := ".BO".data

/-- Python `s.endswith(t)`: `t` is a suffix of `s`. -/
def endswith (s t : Sym) : Bool := t.isSuffixOf s

/-- Embedding of `normalize_symbol` (src/main.py lines 26-33):
if the symbol ends with neither `".NS"` nor `".BO"`, append `".NS"`. -/
def normalize_symbol (symbol : Sym) : Sym :=
  if !(endswith symbol NS || endswith symbol BO) then symbol ++ NS else symbol

/-- Embedding of `normalize_symbols`: normalize each symbol in a list. -/
def normalize_symbols (symbols : List Sym) : List Sym :=
  symbols.map normalize_symbol

theorem endswith_eq_true_iff (s t : Sym) : endswith s t = true ↔ t <:+ s := by
  simp [endswith, List.isSuffixOf_iff_suffix]

/-- C8: `normalize_symbol` returns the input unchanged exactly when it already
ends with `".NS"` or `".BO"` (case-sensitive suffix match), and otherwise
appends `".NS"`; in particular `normalize("RELIANCE") = "RELIANCE.NS"`,
`normalize("RELIANCE.BO") = "RELIANCE.BO"`, and
`normalize("RELIANCE.NS") = "RELIANCE.NS"`. -/
theorem normalize_symbol_suffix_spec (s : Sym) :
    normalize_symbol s = (if NS <:+ s ∨ BO <:+ s then s else s ++ NS) ∧
    normalize_symbol "RELIANCE".data = "RELIANCE.NS".data ∧
    normalize_symbol "RELIANCE.BO".data = "RELIANCE.BO".data ∧
    normalize_symbol "RELIANCE.NS".data = "RELIANCE.NS".data := by
  refine ⟨?_, by decide, by decide, by decide⟩
  unfold normalize_symbol
  by_cases hns : NS <:+ s <;> by_cases hbo : BO <:+ s <;>
    simp [endswith_eq_true_iff, hns, hbo]

/-- C10: symbol normalization is idempotent: normalizing an
already-normalized symbol never appends a second suffix. -/
theorem normalize_symbol_idem (s : Sym) :
    normalize_symbol (normalize_symbol s) = normalize_symbol s := by
  unfold normalize_symbol
  by_cases h : (endswith s NS || endswith s BO) = true
  · simp [h]
  · have hns : endswith (s ++ NS) NS = true := by
      rw [endswith_eq_true_iff]
      exact List.suffix_append s NS
    simp [h, hns]

/-- One asset's dated close-price series as returned by the provider:
(date, close) pairs with dates strictly ascending. -/
abbrev Series : Type := List (Nat × ℚ)

/-- A union-aligned price matrix (result of `pd.concat(df_list, axis=1)`):
column labels and dated rows, one optional close per asset column
(`none` is the pandas missing marker). -/
structure PriceFrame where
  cols : List Sym
  rows : List (Nat × List (Option ℚ))
deriving DecidableEq

/-- A returns matrix after `dropna`: dated rows with no missing cells. -/
structure ReturnsFrame where
  cols : List Sym
  rows : List (Nat × List ℚ)
deriving DecidableEq

/-- Sorted-unique insertion of a date into an ascending date index. -/
def insertDate (d : Nat) : List Nat → List Nat
  | [] => [d]
  | x :: xs =>
    if d < x then d :: x :: xs
    else if d = x then x :: xs
    else x :: insertDate d xs

/-- Union of the date indices of several series (pandas outer-join index). -/
def unionDates (series : List Series) : List Nat :=
  series.foldr (fun s acc => s.foldr (fun p acc2 => insertDate p.1 acc2) acc) []

/-- Look up the close of a series at a date; `none` when the date is absent. -/
def lookupDate (s : Series) (d : Nat) : Option ℚ :=
  (s.find? (fun p => p.1 == d)).map Prod.snd

/-- Embedding of `fetch_historical_data` (src/main.py lines 55-66): fetch each
normalized symbol's close series from the provider, rename each column to the
original symbol, and outer-join-concat them on the union of all dates.  The
provider (yfinance) is a parameter; an unknown symbol yields an empty series. -/
def fetch_historical_data (provider : Sym → Series) (symbols : List Sym) :
    PriceFrame :=
  let series := (normalize_symbols symbols).map provider
  let dates := unionDates series
  ⟨symbols, dates.map (fun d => (d, series.map (fun s => lookupDate s d)))⟩

/-- One cell of `pct_change` without forward filling: defined only when the
price at the date and at the preceding union date are both present. -/
def pctCell (p q : Option ℚ) : Option ℚ :=
  match p, q with
  | some p, some q => some (q / p - 1)
  | _, _ => none

/-- Embedding of `DataFrame.pct_change()` on the dated rows: the first row is
all-missing (no predecessor), and each later row holds `price[t]/price[t-1]-1`
per column, missing whenever either price is missing. -/
def pct_change (rows : List (Nat × List (Option ℚ))) :
    List (Nat × List (Option ℚ)) :=
  match rows with
  | [] => []
  | r0 :: rest =>
    (r0.1, r0.2.map (fun _ => none)) ::
      ((r0 :: rest).zip rest).map
        (fun pr => (pr.2.1, List.zipWith pctCell pr.1.2 pr.2.2))

/-- Sequence a row of optional cells: `some` of the cell list when every cell
is present, `none` otherwise. -/
def allSome : List (Option ℚ) → Option (List ℚ)
  | [] => some []
  | none :: _ => none
  | some q :: rest => (allSome rest).map (fun l => q :: l)

/-- Embedding of `DataFrame.dropna()`: keep exactly the rows with no missing
cell. -/
def dropna (rows : List (Nat × List (Option ℚ))) : List (Nat × List ℚ) :=
  rows.filterMap (fun r => (allSome r.2).map (fun cells => (r.1, cells)))

/-- Embedding of `calculate_returns` (src/main.py lines 69-71):
`price_df.pct_change().dropna()`. -/
def calculate_returns (pf : PriceFrame) : ReturnsFrame :=
  ⟨pf.cols, dropna (pct_change pf.rows)⟩

/-- Dot product of two weight/return vectors (`np.dot`). -/
def dot (a b : List ℚ) : ℚ := (List.zipWith (· * ·) a b).sum

/-- Column `j` of a dense row, defaulting to `0` out of range. -/
def colGet (row : List ℚ) (j : Nat) : ℚ := row.getD j 0

/-- Embedding of `returns.mean()`: per-column sample mean over the rows.
(On zero rows pandas yields `NaN`; in `ℚ` the division by zero yields `0`.) -/
def meanVec (rf : ReturnsFrame) : List ℚ :=
  let T : ℚ := rf.rows.length
  (List.range rf.cols.length).map
    (fun j => (rf.rows.map (fun r => colGet r.2 j)).sum / T)

/-- Embedding of `returns.cov()`: sample covariance matrix with the pandas
default `ddof = 1` denominator `T - 1`.  (On `T ≤ 1` pandas yields `NaN`;
in `ℚ` the degenerate division yields `0`.) -/
def covMat (rf : ReturnsFrame) : List (List ℚ) :=
  let T : ℚ := rf.rows.length
  let mu := meanVec rf
  (List.range rf.cols.length).map (fun j =>
    (List.range rf.cols.length).map (fun k =>
      (rf.rows.map (fun r =>
        (colGet r.2 j - mu.getD j 0) * (colGet r.2 k - mu.getD k 0))).sum
        / (T - 1)))

/-- Matrix-vector product (`np.dot(cov_matrix, weights)`). -/
def matVec (m : List (List ℚ)) (v : List ℚ) : List ℚ :=
  m.map (fun row => dot row v)

/-- Python `round(q, n)`: round to `n` decimal places (tie behaviour modelled
as round-to-nearest). -/
def roundTo (n : Nat) (q : ℚ) : ℚ := ((round (q * 10 ^ n) : ℤ) : ℚ) / 10 ^ n

/-- Terminal outcome of `scipy.optimize.minimize`: the convergence flag
`result.success` and the iterate `result.x`. -/
structure SolverResult where
  success : Bool
  x : List ℚ
deriving DecidableEq

/-- The external SLSQP solver (`scipy.optimize.minimize(..., method="SLSQP")`)
as an opaque deterministic routine.  The source builds the objective, the
simplex constraint, the `[0,1]` bounds and the uniform initial guess from the
mean vector and covariance matrix, so the solver is modelled as a function of
exactly that problem data. -/
abbrev Solver : Type := List ℚ → List (List ℚ) → SolverResult

/-- The success payload of `optimize_portfolio`: the filtered presentation
weight mapping and the two percentage scalars. -/
structure OptResult where
  weights : List (Sym × ℚ)
  expected_return : ℚ
  expected_volatility : ℚ
deriving DecidableEq

/-- Embedding of `optimize_portfolio` (src/main.py lines 74-115).  On solver
success it computes `expected_return = wᵀμ` and
`expected_volatility = sqrt(wᵀΣw)` from the full solver vector `w`, builds the
presentation dict keeping exactly the entries with `weight > 0.01` rounded to
4 decimals, and returns the scalars as percentages rounded to 2 decimals; on
solver failure it raises `ValueError("Optimization failed")`.  `sqrtF` stands
for the floating-point `np.sqrt`. -/
def optimize_portfolio (sqrtF : ℚ → ℚ) (solver : Solver)
    (returns : ReturnsFrame) : Except String OptResult :=
  let mean_returns := meanVec returns
  let cov_matrix := covMat returns
  let result := solver mean_returns cov_matrix
  if result.success then
    let optimized_weights := result.x
    let expected_return := dot optimized_weights mean_returns
    let expected_volatility :=
      sqrtF (dot optimized_weights (matVec cov_matrix optimized_weights))
    let weight_dict := (returns.cols.zip optimized_weights).filterMap
      (fun p => if p.2 > 1 / 100 then some (p.1, roundTo 4 p.2) else none)
    Except.ok
      ⟨weight_dict, roundTo 2 (expected_return * 100),
        roundTo 2 (expected_volatility * 100)⟩
  else
    Except.error "Optimization failed"

/-- The dict returned by the `analyze_portfolio` tool: either the success
payload or the catch-all `{"status": "error", ...}` dict. -/
inductive AnalyzeResult where
  | success (optimized_allocation : List (Sym × ℚ))
      (expected_return expected_volatility : ℚ) (symbols : List Sym)
  | error (message : String)
deriving DecidableEq

/-- Embedding of `analyze_portfolio` (src/main.py lines 118-142): fetch, compute
returns, optimize; every exception raised inside (in the modelled region, the
optimizer's `ValueError`) is caught and turned into an error dict. -/
def analyze_portfolio (sqrtF : ℚ → ℚ) (solver : Solver)
    (provider : Sym → Series) (symbols : List Sym) : AnalyzeResult :=
  let price_data := fetch_historical_data provider symbols
  let returns_data := calculate_returns price_data
  match optimize_portfolio sqrtF solver returns_data with
  | Except.ok best =>
    AnalyzeResult.success best.weights best.expected_return
      best.expected_volatility symbols
  | Except.error e => AnalyzeResult.error ("Error optimizing portfolio: " ++ e)

/-- The identity as a stand-in square root for concrete instantiations (the
claims about the optimizer hold for every `sqrtF`). -/
def sqrtId : ℚ → ℚ := fun q => q

/-- C1: on optimizer success, `expected_return` is the percentage-rounded
`wᵀμ` and `expected_volatility` the percentage-rounded `sqrt(wᵀΣw)`, both
computed from the full, unfiltered solver weight vector `w`, for every input
returns frame, solver, and square-root routine; the formulas never involve
the filtered presentation mapping. -/
theorem optimize_scalars_from_full_vector (sqrtF : ℚ → ℚ) (solver : Solver)
    (ret : ReturnsFrame) (res : OptResult)
    (h : optimize_portfolio sqrtF solver ret = Except.ok res) :
    res.expected_return =
      roundTo 2 (dot (solver (meanVec ret) (covMat ret)).x (meanVec ret) * 100) ∧
    res.expected_volatility =
      roundTo 2 (sqrtF (dot (solver (meanVec ret) (covMat ret)).x
        (matVec (covMat ret) (solver (meanVec ret) (covMat ret)).x)) * 100) := by
  unfold optimize_portfolio at h
  dsimp only at h
  split at h
  · injection h with h'
    subst h'
    exact ⟨rfl, rfl⟩
  · exact Except.noConfusion h

/-- Concrete two-asset returns frame for instantiating C1. -/
def retC1 : ReturnsFrame :=
  ⟨["A".data, "B".data], [(1, [1 / 10, 1 / 5]), (2, [3 / 10, 0])]⟩

/-- Concrete converging solver for C1 whose weight vector has one entry below
the 1% presentation threshold. -/
def solverC1 : Solver := fun _ _ => ⟨true, [1 / 200, 199 / 200]⟩

/-- The concrete success payload produced on `retC1` by `solverC1`. -/
def resC1 : OptResult :=
  (optimize_portfolio sqrtId solverC1 retC1).toOption.getD ⟨[], 0, 0⟩

/-- Witness for C1 at a concrete input on which the solver converges and one
weight falls below the presentation threshold. -/
theorem optimize_scalars_from_full_vector_witness :
    resC1.expected_return =
      roundTo 2 (dot (solverC1 (meanVec retC1) (covMat retC1)).x
        (meanVec retC1) * 100) ∧
    resC1.expected_volatility =
      roundTo 2 (sqrtId (dot (solverC1 (meanVec retC1) (covMat retC1)).x
        (matVec (covMat retC1)
          (solverC1 (meanVec retC1) (covMat retC1)).x)) * 100) :=
  optimize_scalars_from_full_vector sqrtId solverC1 retC1 resC1 (by rfl)

/-- C6: whenever the solver's convergence flag indicates failure the optimizer
raises `ValueError("Optimization failed")` (never a default allocation), and a
success payload is produced only when the solver reports convergence. -/
theorem optimize_portfolio_failure_iff (sqrtF : ℚ → ℚ) (solver : Solver)
    (ret : ReturnsFrame) :
    ((solver (meanVec ret) (covMat ret)).success = false →
      optimize_portfolio sqrtF solver ret =
        Except.error "Optimization failed") ∧
    (∀ res : OptResult, optimize_portfolio sqrtF solver ret = Except.ok res →
      (solver (meanVec ret) (covMat ret)).success = true) := by
  constructor
  · intro hf
    unfold optimize_portfolio
    dsimp only
    rw [hf]
    rfl
  · intro res h
    cases hs : (solver (meanVec ret) (covMat ret)).success
    · unfold optimize_portfolio at h
      dsimp only at h
      rw [hs] at h
      exact Except.noConfusion h
    · rfl

/-- Concrete two-asset returns frame for instantiating C6. -/
def retC6 : ReturnsFrame :=
  ⟨["A".data, "B".data], [(1, [1 / 10, 0]), (2, [0, 1 / 10])]⟩

/-- Concrete non-converging solver for C6. -/
def failSolverC6 : Solver := fun _ _ => ⟨false, []⟩

/-- Concrete converging solver for C6. -/
def okSolverC6 : Solver := fun _ _ => ⟨true, [1 / 2, 1 / 2]⟩

/-- The concrete success payload produced on `retC6` by `okSolverC6`. -/
def resC6 : OptResult :=
  (optimize_portfolio sqrtId okSolverC6 retC6).toOption.getD ⟨[], 0, 0⟩

/-- Witness for C6: a failing solver yields the `Optimization failed` error
and a returned success payload forces the convergence flag. -/
theorem optimize_portfolio_failure_iff_witness :
    optimize_portfolio sqrtId failSolverC6 retC6 =
      Except.error "Optimization failed" ∧
    (okSolverC6 (meanVec retC6) (covMat retC6)).success = true :=
  ⟨(optimize_portfolio_failure_iff sqrtId failSolverC6 retC6).1 rfl,
   (optimize_portfolio_failure_iff sqrtId okSolverC6 retC6).2 resC6 (by rfl)⟩

/-- C9: the optimizer is deterministic: two invocations on identical returns
frames (with the same solver routine and square root, both pure functions as
SLSQP has no randomness) produce identical results, hence identical full
weight vectors and scalars. -/
theorem optimize_portfolio_deterministic (sqrtF : ℚ → ℚ) (solver : Solver)
    (r1 r2 : ReturnsFrame) (h : r1 = r2) :
    optimize_portfolio sqrtF solver r1 = optimize_portfolio sqrtF solver r2 := by
  rw [h]

/-- Concrete one-asset returns frame for instantiating C9. -/
def retC9 : ReturnsFrame := ⟨["A".data], [(1, [1 / 10]), (2, [1 / 5])]⟩

/-- Concrete input-dependent converging solver for C9. -/
def solverC9 : Solver := fun mu _ => ⟨true, mu.map (fun _ => 1)⟩

/-- Witness for C9 at a concrete repeated invocation. -/
theorem optimize_portfolio_deterministic_witness :
    optimize_portfolio sqrtId solverC9 retC9 =
      optimize_portfolio sqrtId solverC9 retC9 :=
  optimize_portfolio_deterministic sqrtId solverC9 retC9 retC9 rfl

/-- Concrete two-asset returns frame for C3. -/
def retC3 : ReturnsFrame :=
  ⟨["A".data, "B".data], [(1, [1 / 10, 1 / 10]), (2, [1 / 5, 0])]⟩

/-- Concrete converging solver for C3 whose weight vector contains an entry
exactly at the 1% threshold. -/
def solverC3 : Solver := fun _ _ => ⟨true, [1 / 100, 99 / 100]⟩

/-- The concrete success payload produced on `retC3` by `solverC3`. -/
def resC3 : OptResult :=
  (optimize_portfolio sqrtId solverC3 retC3).toOption.getD ⟨[], 0, 0⟩

/-- C3 counterexample: the claim says entries with weight greater than OR EQUAL
to 0.01 appear in the presentation mapping, but the source filters with strict
`weight > 0.01`: here asset `A` has full-vector weight exactly `1/100 ≥ 1/100`
yet is absent from the returned mapping. -/
theorem weight_dict_boundary_cex :
    optimize_portfolio sqrtId solverC3 retC3 = Except.ok resC3 ∧
    ("A".data, (1 : ℚ) / 100) ∈
      retC3.cols.zip (solverC3 (meanVec retC3) (covMat retC3)).x ∧
    (1 : ℚ) / 100 ≥ 1 / 100 ∧
    "A".data ∉ resC3.weights.map Prod.fst := by
  refine ⟨rfl, ?_, le_refl _, ?_⟩
  · simp [retC3, solverC3]
  · have hw : resC3.weights = [("B".data, roundTo 4 (99 / 100))] := by
      simp only [resC3, optimize_portfolio, retC3, solverC3, Except.toOption,
        Option.getD]
      norm_num [List.filterMap]
    simp [hw]

/-- C3 (amended): the presentation mapping contains exactly the entries whose
full-vector weight is strictly greater than 0.01, each value rounded to 4
decimal places with no renormalization of the remaining entries. -/
theorem weight_dict_strict_filter (sqrtF : ℚ → ℚ) (solver : Solver)
    (ret : ReturnsFrame) (res : OptResult)
    (h : optimize_portfolio sqrtF solver ret = Except.ok res)
    (sym : Sym) (q : ℚ) :
    (sym, q) ∈ res.weights ↔
      ∃ w : ℚ,
        (sym, w) ∈ ret.cols.zip (solver (meanVec ret) (covMat ret)).x ∧
        w > 1 / 100 ∧ q = roundTo 4 w := by
  unfold optimize_portfolio at h
  dsimp only at h
  split at h
  · injection h with h'
    subst h'
    simp only [List.mem_filterMap]
    constructor
    · rintro ⟨⟨s2, w⟩, hp, hif⟩
      dsimp only at hif
      by_cases hw : w > 1 / 100
      · rw [if_pos hw] at hif
        simp only [Option.some.injEq, Prod.mk.injEq] at hif
        obtain ⟨hs, hq⟩ := hif
        subst hs
        exact ⟨w, hp, hw, hq.symm⟩
      · rw [if_neg hw] at hif
        exact Option.noConfusion hif
    · rintro ⟨w, hmem, hwgt, hq⟩
      refine ⟨(sym, w), hmem, ?_⟩
      dsimp only
      rw [if_pos hwgt, hq]
  · exact Except.noConfusion h

/-- Witness for the amended C3 at a concrete input: the above-threshold asset
`B` appears with its rounded weight. -/
theorem weight_dict_strict_filter_witness :
    ("B".data, roundTo 4 ((99 : ℚ) / 100)) ∈ resC3.weights ↔
      ∃ w : ℚ,
        ("B".data, w) ∈
          retC3.cols.zip (solverC3 (meanVec retC3) (covMat retC3)).x ∧
        w > 1 / 100 ∧ roundTo 4 ((99 : ℚ) / 100) = roundTo 4 w :=
  weight_dict_strict_filter sqrtId solverC3 retC3 resC3 (by rfl) "B".data
    (roundTo 4 ((99 : ℚ) / 100))

/-- The Returns Calculator as the amended C2 claim words it: one output row per
consecutive date pair of the union-aligned matrix, kept exactly when every
asset has a value at both the date and its predecessor, with cell
`price[t]/price[t-1] - 1`. -/
def returns_spec (rows : List (Nat × List (Option ℚ))) : List (Nat × List ℚ) :=
  (rows.zip rows.tail).filterMap (fun pr =>
    match allSome pr.1.2, allSome pr.2.2 with
    | some ps, some qs =>
      some (pr.2.1, List.zipWith (fun p q => q / p - 1) ps qs)
    | _, _ => none)

/-- Coverage test: the union-aligned date row has a value in every column. -/
def fullRow (row : List (Option ℚ)) : Bool := row.all (fun c => c.isSome)

/-- The dates in the intersection of all assets' coverage: the union-aligned
rows where every asset has a value. -/
def intersectionDates (pf : PriceFrame) : List Nat :=
  pf.rows.filterMap (fun r => if fullRow r.2 then some r.1 else none)

theorem allSome_zipWith_pctCell (a : List (Option ℚ)) :
    ∀ b : List (Option ℚ), a.length = b.length →
      allSome (List.zipWith pctCell a b) =
        match allSome a, allSome b with
        | some ps, some qs =>
          some (List.zipWith (fun p q => q / p - 1) ps qs)
        | _, _ => none := by
  induction a with
  | nil =>
    intro b h
    cases b with
    | nil => rfl
    | cons y ys => simp at h
  | cons x xs ih =>
    intro b h
    cases b with
    | nil => simp at h
    | cons y ys =>
      have h' : xs.length = ys.length := by simpa using h
      cases x with
      | none =>
        cases y <;> simp [pctCell, allSome]
      | some p =>
        cases y with
        | none =>
          rcases hxs : allSome xs with _ | ps <;>
            simp [pctCell, allSome, hxs]
        | some q =>
          rcases hxs : allSome xs with _ | ps <;>
            rcases hys : allSome ys with _ | qs <;>
            simp [pctCell, allSome, hxs, hys, ih ys h']

theorem dropna_pct_eq_spec (w : Nat) (hw : 0 < w)
    (rows : List (Nat × List (Option ℚ)))
    (hr : ∀ r ∈ rows, (r.2).length = w) :
    dropna (pct_change rows) = returns_spec rows := by
  cases rows with
  | nil => rfl
  | cons r0 rest =>
    have h0 : (r0.2).length = w := hr r0 (List.mem_cons_self r0 rest)
    have hfirst : allSome (r0.2.map (fun _ => (none : Option ℚ))) = none := by
      cases hc : r0.2 with
      | nil => rw [hc] at h0; simp at h0; omega
      | cons c cs => simp [allSome]
    simp only [pct_change, dropna, List.filterMap_cons, hfirst, Option.map_none']
    rw [List.filterMap_map]
    unfold returns_spec
    apply List.filterMap_congr
    intro pr hpr
    obtain ⟨h1, h2⟩ := List.of_mem_zip hpr
    have hlen : pr.1.2.length = pr.2.2.length :=
      (hr _ h1).trans (hr _ (List.mem_cons_of_mem r0 h2)).symm
    show (allSome (List.zipWith pctCell pr.1.2 pr.2.2)).map
        (fun cells => (pr.2.1, cells)) = _
    rw [allSome_zipWith_pctCell pr.1.2 pr.2.2 hlen]
    rcases hA : allSome pr.1.2 with _ | ps <;>
      rcases hB : allSome pr.2.2 with _ | qs <;> simp

/-- C2 (amended): for every well-formed union-aligned price matrix (at least
one asset, each row one cell per asset), `calculate_returns` produces exactly
the rows described by `returns_spec`: the cell for asset `i` at date `t` is
`price_i[t]/price_i[t-1] - 1`, the first date is dropped, and a date row
survives exactly when every asset has a value at both that date and the
immediately preceding union date — a subset of, but in general not equal to,
the intersection of all assets' coverage. -/
theorem calculate_returns_spec (pf : PriceFrame) (hw : 0 < pf.cols.length)
    (hr : ∀ r ∈ pf.rows, (r.2).length = pf.cols.length) :
    calculate_returns pf = ⟨pf.cols, returns_spec pf.rows⟩ := by
  unfold calculate_returns
  rw [dropna_pct_eq_spec pf.cols.length hw pf.rows hr]

/-- Concrete fully-covered two-asset price frame for instantiating C2. -/
def pfC2w : PriceFrame :=
  ⟨["A".data, "B".data], [(0, [some 1, some 2]), (1, [some 2, some 1])]⟩

/-- Witness for the amended C2 at a concrete price frame. -/
theorem calculate_returns_spec_witness :
    calculate_returns pfC2w = ⟨pfC2w.cols, returns_spec pfC2w.rows⟩ :=
  calculate_returns_spec pfC2w (by decide) (by decide)

/-- Concrete price frame for the C2 counterexample: asset `A` has an interior
gap at date 1 of the union index. -/
def pfC2 : PriceFrame :=
  ⟨["A".data, "B".data],
    [(0, [some 1, some 1]), (1, [none, some 1]), (2, [some 2, some 1])]⟩

/-- C2 counterexample: the claim says the surviving rows are exactly the
intersection of all assets' coverage, but on `pfC2` the intersection of
coverage is the dates `{0, 2}` (so `{2}` once the first date is dropped)
while `calculate_returns` keeps no row at all: asset `A`'s missing value at
date 1 also makes date 2's return undefined. -/
theorem returns_rows_not_intersection_cex :
    intersectionDates pfC2 = [0, 2] ∧
    (calculate_returns pfC2).rows = [] ∧
    (calculate_returns pfC2).rows.map Prod.fst ≠
      (intersectionDates pfC2).drop 1 := by
  exact ⟨by decide, by decide, by decide⟩

/-- Whether an analyze result reports success. -/
def AnalyzeResult.isSuccess : AnalyzeResult → Bool
  | AnalyzeResult.success _ _ _ _ => true
  | AnalyzeResult.error _ => false

/-- The asset keys of the allocation returned to the caller (empty on error). -/
def AnalyzeResult.allocKeys : AnalyzeResult → List Sym
  | AnalyzeResult.success a _ _ _ => a.map Prod.fst
  | AnalyzeResult.error _ => []

/-- Provider for C4: both requested symbols have exactly one price
observation, so the aligned returns matrix has zero rows. -/
def providerC4 : Sym → Series := fun s =>
  if s = "A.NS".data then [(0, 100)]
  else if s = "B.NS".data then [(0, 200)]
  else []

/-- A solver that reports convergence with the uniform allocation; nothing in
the repository prevents the external solver from doing so on the `NaN`
statistics of a zero-row matrix. -/
def okSolverC4 : Solver := fun _ _ => ⟨true, [1 / 2, 1 / 2]⟩

/-- C4 (code bug): the source has no zero-row / asset-count guard and no
`InsufficientData` classification: on a price history producing a zero-row
returns matrix the pipeline still calls the solver, and with a solver that
reports convergence `analyze_portfolio` returns a success payload carrying
the uniform allocation instead of any `InsufficientData` error. -/
theorem zero_rows_reach_solver_cex :
    (calculate_returns
      (fetch_historical_data providerC4 ["A".data, "B".data])).rows = [] ∧
    (analyze_portfolio sqrtId okSolverC4 providerC4
      ["A".data, "B".data]).isSuccess = true ∧
    (analyze_portfolio sqrtId okSolverC4 providerC4
      ["A".data, "B".data]).allocKeys = ["A".data, "B".data] := by
  refine ⟨by decide, by rfl, ?_⟩
  have h1 : (analyze_portfolio sqrtId okSolverC4 providerC4
      ["A".data, "B".data]).allocKeys =
      ((["A".data, "B".data].zip [(1 : ℚ) / 2, 1 / 2]).filterMap
        (fun p => if p.2 > 1 / 100 then some (p.1, roundTo 4 p.2) else none)).map
        Prod.fst := by rfl
  rw [h1]
  norm_num [List.filterMap_cons]

/-- Provider for C5: symbol `A` has a three-point history while the provider
returns an empty series for symbol `B`. -/
def providerC5 : Sym → Series := fun s =>
  if s = "A.NS".data then [(0, 10), (1, 11), (2, 12)] else []

/-- A solver that reports convergence putting all weight on the surviving
asset; nothing in the repository prevents the external solver from doing so on
the `NaN` statistics of a zero-row matrix. -/
def okSolverC5 : Solver := fun _ _ => ⟨true, [1, 0]⟩

/-- C5 (code bug): the source has no empty-series check and no
`DataUnavailable` classification: the bad symbol stays as an all-missing
column (it is indeed not excluded), which empties the returns matrix, and the
pipeline still calls the solver; with a solver that reports convergence the
request returns a success payload whose allocation covers only the remaining
asset, instead of any `DataUnavailable` failure of the whole request. -/
theorem empty_series_reach_solver_cex :
    (fetch_historical_data providerC5 ["A".data, "B".data]).cols =
      ["A".data, "B".data] ∧
    (fetch_historical_data providerC5 ["A".data, "B".data]).rows.map
      (fun r => r.2.getD 1 none) = [none, none, none] ∧
    (calculate_returns
      (fetch_historical_data providerC5 ["A".data, "B".data])).rows = [] ∧
    (analyze_portfolio sqrtId okSolverC5 providerC5
      ["A".data, "B".data]).isSuccess = true ∧
    (analyze_portfolio sqrtId okSolverC5 providerC5
      ["A".data, "B".data]).allocKeys = ["A".data] := by
  refine ⟨by decide, by decide, by decide, by rfl, ?_⟩
  have h1 : (analyze_portfolio sqrtId okSolverC5 providerC5
      ["A".data, "B".data]).allocKeys =
      ((["A".data, "B".data].zip [(1 : ℚ), 0]).filterMap
        (fun p => if p.2 > 1 / 100 then some (p.1, roundTo 4 p.2) else none)).map
        Prod.fst := by rfl
  rw [h1]
  norm_num [List.filterMap_cons]

end StockAnalysis





